import Mathlib

/-!
Formal model of the vote-collection worker: a KV-backed backend with
duplicate-vote prevention (`vote:{token}:{item}` records), per-token daily
rate limiting (`rate:{token}:{day}` counters), per-item like/dislike
counters (`{voteType}:{item}`), a 60-second read cache
(`cache:votes:{item}`), batch reads, rankings and statistics.

Modelling decisions, shared by all definitions below:

* The KV store is an association list of entries carrying an optional
  absolute expiration time in seconds; a put with `expirationTtl: d`
  stores expiry `now + d`, and a get at time `now` treats an entry whose
  expiry is `≤ now` as absent.
* Values are a typed union `Val`.  The source serializes counters with
  `String(n)` / `parseInt(s)` and cache entries with `JSON.stringify` /
  `JSON.parse`; these are inverse pairs on every value the worker writes,
  so the model stores the typed values directly.
* JavaScript string builtins used by the worker (`split(',')`, `trim()`,
  `substring(0,8)`, `replace('like:','')` on a key that starts with
  `like:`) are modelled as structural functions over `String.data`.
* JavaScript numbers are modelled as exact arithmetic (`Nat`, `Int`, `ℚ`);
  all counter values the worker manipulates are far below 2^53.
* `await` sequencing is modelled by explicit state passing; the batch
  endpoint's per-item fan-out is serialized in request order.
-/

namespace VoteApi

/-- A per-item summary as produced by the read paths of the worker:
`{item_id, likes, dislikes, net_score, total_votes}`. -/
structure Summary where
  item_id : String
  likes : Nat
  dislikes : Nat
  net_score : Int
  total_votes : Nat
deriving Repr, DecidableEq

/-- The analytics record written under `meta:{item}:{timestamp}`:
`{token_hash, vote_type, timestamp, date}`. -/
structure MetaRec where
  token_hash : String
  vote_type : String
  timestamp : Nat
  date : String
deriving Repr, DecidableEq

/-- A stored KV value.  `num n` stands for the decimal string `String(n)`
read back with `parseInt`; `summary x` stands for `JSON.stringify(x)` read
back with `JSON.parse`. -/
inductive Val where
  | str (s : String)
  | num (n : Nat)
  | summary (x : Summary)
  | metaRec (x : MetaRec)
deriving Repr, DecidableEq

/-- One stored KV entry: key, value, and optional absolute expiration
time in seconds (`none` = the entry never expires). -/
structure Entry where
  key : String
  val : Val
  exp : Option Nat
deriving Repr, DecidableEq

/-- The KV namespace `env.VOTES`. -/
abbrev Store := List Entry

/-- Whether an entry is still live at time `now` (TTL not yet elapsed). -/
def liveAt (e : Entry) (now : Nat) : Bool :=
  match e.exp with
  | none => true
  | some t => now < t

/-- `env.VOTES.get(k)` at time `now`: an expired entry reads as absent. -/
def kvGet (s : Store) (now : Nat) (k : String) : Option Val :=
  match s.find? (fun e => e.key == k) with
  | none => none
  | some e => if liveAt e now then some e.val else none

/-- `env.VOTES.put(k, v, {expirationTtl: ttl})` at time `now`: replaces
any existing entry for `k`. -/
def kvPut (s : Store) (now : Nat) (k : String) (v : Val) (ttl : Option Nat) : Store :=
  ⟨k, v, ttl.map (fun d => now + d)⟩ :: s.filter (fun e => !(e.key == k))

/-- `p.data` is a prefix of `k.data`; models the key filter of
`env.VOTES.list({prefix: p})`. -/
def strHasPref (p k : String) : Bool :=
  p.data.isPrefixOf k.data

/-- `env.VOTES.list({prefix: p})` at time `now`: the names of the live
keys that start with `p`.  (The order the backing service enumerates keys
in is irrelevant to every property below: rankings sort afterwards and
stats fold a commutative sum.) -/
def kvList (s : Store) (now : Nat) (p : String) : List String :=
  (s.filter (fun e => strHasPref p e.key && liveAt e now)).map (fun e => e.key)

/-- `parseInt(x || '0')` applied to the result of a get.  The worker only
ever writes decimal numerals at the keys it reads through `parseInt`, so
the non-numeric branches are unreachable and mapped to `0`. -/
def parseIntOr0 (v : Option Val) : Nat :=
  match v with
  | some (.num n) => n
  | _ => 0

/-- `vote:${token}:${item_id}` — the vote-ledger key. -/
def voteKey (token item : String) : String := "vote:" ++ token ++ ":" ++ item

/-- `${vote_type}:${item_id}` — the per-item counter key. -/
def countKey (vt item : String) : String := vt ++ ":" ++ item

/-- `like:${item_id}`. -/
def likeKey (item : String) : String := "like:" ++ item

/-- `dislike:${item_id}`. -/
def dislikeKey (item : String) : String := "dislike:" ++ item

/-- `rate:${token}:${today}` — the daily rate-limit counter key. -/
def rateKey (token day : String) : String := "rate:" ++ token ++ ":" ++ day

/-- `cache:votes:${item_id}` — the read-cache key. -/
def cacheKey (item : String) : String := "cache:votes:" ++ item

/-- `meta:${item_id}:${Date.now()}` — the analytics key. -/
def metaKey (item : String) (ms : Nat) : String :=
  "meta:" ++ item ++ ":" ++ Nat.repr ms

/-- `token.substring(0, 8)` — the partial token hash stored for privacy. -/
def tokenHash (token : String) : String :=
  String.mk (token.data.take 8)

/-- The body of a `POST /vote` request: `{item_id, token, vote_type, date}`
(`date` optional). -/
structure VoteReq where
  item_id : String
  token : String
  vote_type : String
  date : Option String
deriving Repr, DecidableEq

/-- The possible responses of `handleVote`:
400 missing fields, 400 invalid vote type, 409 already voted,
429 rate limit exceeded, or 200 with the updated counts (the JSON body
also carries `net_score = likes - dislikes`, derived from the two
counts). -/
inductive VResp where
  | missingFields
  | invalidVoteType
  | alreadyVoted
  | rateLimited
  | ok (item_id : String) (likes dislikes : Nat)
deriving Repr, DecidableEq

/-- The HTTP status code of a vote response. -/
def VResp.status : VResp → Nat
  | .missingFields => 400
  | .invalidVoteType => 400
  | .alreadyVoted => 409
  | .rateLimited => 429
  | .ok _ _ _ => 200

/-- Whether a vote response is the 200 success. -/
def VResp.isOk : VResp → Bool
  | .ok _ _ _ => true
  | _ => false

/-- `handleVote`: validate, check the ledger, check the rate limit, then
record the vote, bump the item counter and the rate counter, write the
analytics record, and answer with freshly read counts.

`now` is the request time in seconds (used for TTL arithmetic), `ms` is
`Date.now()` (used in the analytics key), `today` is the string
`new Date().toISOString().split('T')[0]`.  The JS truthiness tests
`!item_id` / `if (existingVote)` treat only the empty string specially;
ledger values are always `"like"`/`"dislike"`, never empty. -/
def handleVote (now ms : Nat) (today : String) (req : VoteReq) (s : Store) :
    VResp × Store :=
  if req.item_id == "" || req.token == "" || req.vote_type == "" then
    (.missingFields, s)
  else if !(req.vote_type == "like" || req.vote_type == "dislike") then
    (.invalidVoteType, s)
  else if (kvGet s now (voteKey req.token req.item_id)).isSome then
    (.alreadyVoted, s)
  else
    let voteCount := parseIntOr0 (kvGet s now (rateKey req.token today))
    if 50 ≤ voteCount then
      (.rateLimited, s)
    else
      let s1 := kvPut s now (voteKey req.token req.item_id)
        (.str req.vote_type) (some (60 * 60 * 24 * 30))
      let currentCount :=
        parseIntOr0 (kvGet s1 now (countKey req.vote_type req.item_id))
      let s2 := kvPut s1 now (countKey req.vote_type req.item_id)
        (.num (currentCount + 1)) none
      let s3 := kvPut s2 now (rateKey req.token today)
        (.num (voteCount + 1)) (some (60 * 60 * 24))
      let s4 := kvPut s3 now (metaKey req.item_id ms)
        (.metaRec ⟨tokenHash req.token, req.vote_type, ms, req.date.getD today⟩)
        (some (60 * 60 * 24 * 30))
      let likes := parseIntOr0 (kvGet s4 now (likeKey req.item_id))
      let dislikes := parseIntOr0 (kvGet s4 now (dislikeKey req.item_id))
      (.ok req.item_id likes dislikes, s4)

/-- The Counter Store read (the cache-miss path of `getVoteCounts`):
fetch both counters and build the summary; `net_score` and `total_votes`
are computed from `likes` and `dislikes`, never read from storage. -/
def readCounts (s : Store) (now : Nat) (item : String) : Summary :=
  let likes := parseIntOr0 (kvGet s now (likeKey item))
  let dislikes := parseIntOr0 (kvGet s now (dislikeKey item))
  ⟨item, likes, dislikes, (likes : Int) - (dislikes : Int), likes + dislikes⟩

/-- The possible responses of `GET /votes/:item_id`: 400 when the id is
missing, a cache hit returning the cached blob verbatim (`X-Cache: HIT`),
or a freshly computed summary (`X-Cache: MISS`). -/
inductive CResp where
  | missingItem
  | hit (cached : Val)
  | miss (x : Summary)
deriving Repr, DecidableEq

/-- `getVoteCounts`: serve from cache when a live entry exists, else
compute from the counters and cache the result for 60 seconds. -/
def getVoteCounts (now : Nat) (item : String) (s : Store) : CResp × Store :=
  if item == "" then
    (.missingItem, s)
  else
    match kvGet s now (cacheKey item) with
    | some v => (.hit v, s)
    | none =>
      let r := readCounts s now item
      (.miss r, kvPut s now (cacheKey item) (.summary r) (some 60))

/-- JS `id.trim()`: strip leading and trailing whitespace. -/
def jsTrim (s : String) : String :=
  String.mk (((s.data.dropWhile Char.isWhitespace).reverse.dropWhile
    Char.isWhitespace).reverse)

/-- Helper for `jsSplitComma`: walk the characters, cutting at `','`. -/
def splitCommaAux : List Char → List Char → List String
  | [], acc => [String.mk acc.reverse]
  | c :: cs, acc =>
    if c == ',' then String.mk acc.reverse :: splitCommaAux cs []
    else splitCommaAux cs (c :: acc)

/-- JS `idsParam.split(',')`. -/
def jsSplitComma (s : String) : List String :=
  splitCommaAux s.data []

/-- `idsParam.split(',').filter(id => id.trim().length > 0)`. -/
def parsedIds (idsParam : String) : List String :=
  (jsSplitComma idsParam).filter (fun id => !(jsTrim id).data.isEmpty)

/-- Assignment `results[k] = v` on a JS object modelled as an association
list in insertion order: assigning to an existing key overwrites its
value in place, otherwise the pair is appended. -/
def objAssign (m : List (String × Val)) (k : String) (v : Val) :
    List (String × Val) :=
  if m.any (fun p => p.1 == k) then
    m.map (fun p => if p.1 == k then (k, v) else p)
  else
    m ++ [(k, v)]

/-- The possible responses of `GET /votes/batch`: three 400 errors, or a
200 body `{results, count, cache_hits, cache_misses}`. -/
inductive BResp where
  | missingIds
  | noValidIds
  | tooMany
  | ok (results : List (String × Val)) (count cacheHits cacheMisses : Nat)
deriving Repr, DecidableEq

/-- The per-item body of the batch endpoint, serialized in request order
(the source fans the items out with `Promise.all`; each item's resolution
is self-contained, so for the stores the claims quantify over the
serialization is observationally the relevant order).  Threads the
results object, the hit/miss tallies and the store. -/
def batchLoop (now : Nat) :
    List String → Store → List (String × Val) → Nat → Nat →
    List (String × Val) × Nat × Nat × Store
  | [], s, results, hits, misses => (results, hits, misses, s)
  | itemId :: rest, s, results, hits, misses =>
    let trimmedId := jsTrim itemId
    match kvGet s now (cacheKey trimmedId) with
    | some v =>
      batchLoop now rest s (objAssign results trimmedId v) (hits + 1) misses
    | none =>
      let r := readCounts s now trimmedId
      let s2 := kvPut s now (cacheKey trimmedId) (.summary r) (some 60)
      batchLoop now rest s2 (objAssign results trimmedId (.summary r))
        hits (misses + 1)

/-- `getBatchVoteCounts`: validate the `ids` parameter, then resolve each
id through the cache, answering with the results object and
`count = itemIds.length`. -/
def getBatchVoteCounts (now : Nat) (idsParam : String) (s : Store) :
    BResp × Store :=
  if idsParam == "" then
    (.missingIds, s)
  else
    let itemIds := parsedIds idsParam
    if itemIds.length == 0 then
      (.noValidIds, s)
    else if 200 < itemIds.length then
      (.tooMany, s)
    else
      let (results, hits, misses, s2) := batchLoop now itemIds s [] 0 0
      (.ok results itemIds.length hits misses, s2)

/-- Insert `x` into `l` before the first element `y` with `le x y`;
helper for `sortBy`. -/
def insertLe {α : Type} (le : α → α → Bool) (x : α) : List α → List α
  | [] => [x]
  | y :: ys => if le x y then x :: y :: ys else y :: insertLe le x ys

/-- Stable sort by the boolean relation `le`.  Models JS
`Array.prototype.sort` with a consistent comparator (`cmp a b ≤ 0` iff
`le a b`): JS sort is stable, and any two stable sorts agree, so this
structural insertion sort is extensionally the source's sort. -/
def sortBy {α : Type} (le : α → α → Bool) : List α → List α
  | [] => []
  | x :: xs => insertLe le x (sortBy le xs)

/-- The comparator of `getRankings`:
`(a, b) => b.net_score - a.net_score` orders `a` before `b` exactly when
`b.net_score ≤ a.net_score`. -/
def rankLe (a b : Summary) : Bool :=
  decide (b.net_score ≤ a.net_score)

/-- The 200 body of `GET /rankings` (the `generated_at` clock string is
not modelled). -/
structure Rankings where
  items : List Summary
  total_items : Nat
deriving Repr, DecidableEq

/-- `getRankings`: list all `like:` keys, rebuild each item id by
stripping the 5-character prefix (the source's
`key.name.replace('like:', '')`: every listed key starts with `like:`,
so the first occurrence replaced is the prefix), read both counters,
and sort by descending net score. -/
def getRankings (now : Nat) (s : Store) : Rankings :=
  let items := (kvList s now "like:").map
    (fun k => readCounts s now (String.mk (k.data.drop 5)))
  ⟨sortBy rankLe items, (sortBy rankLe items).length⟩

/-- The 200 body of `GET /stats` (the `generated_at` clock string is not
modelled). -/
structure Stats where
  total_likes : Nat
  total_dislikes : Nat
  total_votes : Nat
  total_items : Nat
  like_percentage : Int
deriving Repr, DecidableEq

/-- The accumulation loop of `getStats` over the listed `like:` keys. -/
def statsFold (s : Store) (now : Nat) (keys : List String) : Nat × Nat × Nat :=
  keys.foldl
    (fun acc k =>
      let itemId := String.mk (k.data.drop 5)
      let likes := parseIntOr0 (kvGet s now (likeKey itemId))
      let dislikes := parseIntOr0 (kvGet s now (dislikeKey itemId))
      (acc.1 + likes, acc.2.1 + dislikes, acc.2.2 + 1))
    (0, 0, 0)

/-- `getStats`: scan the `like:` keys, total the counters, and derive
`like_percentage = Math.round(totalLikes / totalVotes * 100)` (exact
arithmetic model of the source's JS-number computation) with `0` when
there are no votes. -/
def getStats (now : Nat) (s : Store) : Stats :=
  let t := statsFold s now (kvList s now "like:")
  let totalLikes := t.1
  let totalDislikes := t.2.1
  let totalItems := t.2.2
  { total_likes := totalLikes
    total_dislikes := totalDislikes
    total_votes := totalLikes + totalDislikes
    total_items := totalItems
    like_percentage :=
      if 0 < totalLikes + totalDislikes then
        round ((totalLikes : ℚ) / ((totalLikes : ℚ) + (totalDislikes : ℚ)) * 100)
      else 0 }

/-- One `POST /vote` invocation: its clock readings and request body. -/
structure VoteCall where
  now : Nat
  ms : Nat
  today : String
  req : VoteReq
deriving Repr, DecidableEq

/-- Run a sequence of vote submissions, threading the store. -/
def runVotes : List VoteCall → Store → Store
  | [], s => s
  | c :: cs, s => runVotes cs (handleVote c.now c.ms c.today c.req s).2

/-- Every call in the sequence is accepted (answers 200) in the state it
runs in. -/
def allAccepted : List VoteCall → Store → Bool
  | [], _ => true
  | c :: cs, s =>
    (handleVote c.now c.ms c.today c.req s).1.isOk &&
      allAccepted cs (handleVote c.now c.ms c.today c.req s).2

/-- The number of calls in the sequence that vote `vt` on item `i`. -/
def countVotes (i vt : String) (cs : List VoteCall) : Nat :=
  (cs.filter (fun c => c.req.item_id == i && c.req.vote_type == vt)).length

/-- The write sequence of the success branch of `handleVote`: record the
vote, bump the item counter, bump the rate counter, write the analytics
record.  Factored out so that lemmas can speak about the post-vote
store. -/
def votePuts (now ms : Nat) (today : String) (req : VoteReq) (s : Store) : Store :=
  let voteCount := parseIntOr0 (kvGet s now (rateKey req.token today))
  let s1 := kvPut s now (voteKey req.token req.item_id)
    (.str req.vote_type) (some (60 * 60 * 24 * 30))
  let currentCount :=
    parseIntOr0 (kvGet s1 now (countKey req.vote_type req.item_id))
  let s2 := kvPut s1 now (countKey req.vote_type req.item_id)
    (.num (currentCount + 1)) none
  let s3 := kvPut s2 now (rateKey req.token today)
    (.num (voteCount + 1)) (some (60 * 60 * 24))
  kvPut s3 now (metaKey req.item_id ms)
    (.metaRec ⟨tokenHash req.token, req.vote_type, ms, req.date.getD today⟩)
    (some (60 * 60 * 24 * 30))

/-! ### Facts about keys

Every key kind used by the worker starts with a distinct character
(`v`, `l`, `d`, `r`, `c`, `m`), so keys of different kinds never collide;
within a kind the constructors are injective in the varying component. -/

theorem data_head_append (s t : String) (c : Char)
    (h : s.data.head? = some c) : (s ++ t).data.head? = some c := by
  rw [String.data_append]
  cases hd : s.data with
  | nil => rw [hd] at h; cases h
  | cons a l => rw [hd] at h; injection h with h; subst h; rfl

theorem ne_of_data_head (a b : String) {c d : Char}
    (ha : a.data.head? = some c) (hb : b.data.head? = some d)
    (h : c ≠ d) : a ≠ b := by
  intro he
  rw [he, hb] at ha
  exact h (Option.some.inj ha).symm

theorem head_voteKey (t i : String) : (voteKey t i).data.head? = some 'v' :=
  data_head_append _ _ _ (data_head_append _ _ _ (data_head_append _ _ _ rfl))

theorem head_likeKey (i : String) : (likeKey i).data.head? = some 'l' :=
  data_head_append _ _ _ rfl

theorem head_dislikeKey (i : String) : (dislikeKey i).data.head? = some 'd' :=
  data_head_append _ _ _ rfl

theorem head_rateKey (t d : String) : (rateKey t d).data.head? = some 'r' :=
  data_head_append _ _ _ (data_head_append _ _ _ (data_head_append _ _ _ rfl))

theorem head_cacheKey (i : String) : (cacheKey i).data.head? = some 'c' :=
  data_head_append _ _ _ rfl

theorem head_metaKey (i : String) (ms : Nat) :
    (metaKey i ms).data.head? = some 'm' :=
  data_head_append _ _ _ (data_head_append _ _ _ (data_head_append _ _ _ rfl))

/-- `${'like'}:${i}` and `like:${i}` are the same key. -/
theorem countKey_like (i : String) : countKey "like" i = likeKey i := by
  show ("like" ++ ":") ++ i = "like:" ++ i
  rw [show ("like" ++ ":") = "like:" from by decide]

/-- `${'dislike'}:${i}` and `dislike:${i}` are the same key. -/
theorem countKey_dislike (i : String) : countKey "dislike" i = dislikeKey i := by
  show ("dislike" ++ ":") ++ i = "dislike:" ++ i
  rw [show ("dislike" ++ ":") = "dislike:" from by decide]

theorem append_left_inj (p : String) {a b : String}
    (h : p ++ a = p ++ b) : a = b := by
  have h2 := congrArg String.data h
  rw [String.data_append, String.data_append] at h2
  exact String.ext (List.append_cancel_left h2)

theorem likeKey_inj {i j : String} (h : likeKey i = likeKey j) : i = j :=
  append_left_inj "like:" h

theorem dislikeKey_inj {i j : String} (h : dislikeKey i = dislikeKey j) : i = j :=
  append_left_inj "dislike:" h

theorem cacheKey_inj {i j : String} (h : cacheKey i = cacheKey j) : i = j :=
  append_left_inj "cache:votes:" h

theorem rateKey_day_inj {t d d' : String} (h : rateKey t d = rateKey t d') :
    d = d' := by
  have : ("rate:" ++ t ++ ":") ++ d = ("rate:" ++ t ++ ":") ++ d' := by
    simpa [rateKey, String.append_assoc] using h
  exact append_left_inj _ this

/-! ### Facts about the store operations -/

theorem find?_filter_ne {s : Store} {k k' : String} (h : k' ≠ k) :
    (s.filter (fun e => !(e.key == k))).find? (fun e => e.key == k') =
      s.find? (fun e => e.key == k') := by
  induction s with
  | nil => rfl
  | cons e s ih =>
    by_cases hek : e.key = k
    · have h1 : (e.key == k) = true := beq_iff_eq.mpr hek
      have h2 : (e.key == k') = false := by
        rw [beq_eq_false_iff_ne, hek]
        exact fun he => h he.symm
      simp [List.filter_cons, h1, List.find?_cons, h2, ih]
    · have h1 : (e.key == k) = false := beq_eq_false_iff_ne.mpr hek
      by_cases hek' : e.key = k'
      · have h2 : (e.key == k') = true := beq_iff_eq.mpr hek'
        simp [List.filter_cons, h1, List.find?_cons, h2]
      · have h2 : (e.key == k') = false := beq_eq_false_iff_ne.mpr hek'
        simp [List.filter_cons, h1, List.find?_cons, h2, ih]

theorem find?_kvPut_ne {s : Store} {now : Nat} {k k' : String} {v : Val}
    {ttl : Option Nat} (h : k' ≠ k) :
    (kvPut s now k v ttl).find? (fun e => e.key == k') =
      s.find? (fun e => e.key == k') := by
  have h1 : ((⟨k, v, ttl.map (fun d => now + d)⟩ : Entry).key == k') = false :=
    beq_eq_false_iff_ne.mpr fun he => h he.symm
  simp [kvPut, List.find?_cons, h1, find?_filter_ne h]

theorem find?_kvPut_self {s : Store} {now : Nat} {k : String} {v : Val}
    {ttl : Option Nat} :
    (kvPut s now k v ttl).find? (fun e => e.key == k) =
      some ⟨k, v, ttl.map (fun d => now + d)⟩ := by
  simp [kvPut, List.find?_cons]

theorem kvGet_kvPut_ne {s : Store} {now now' : Nat} {k k' : String} {v : Val}
    {ttl : Option Nat} (h : k' ≠ k) :
    kvGet (kvPut s now k v ttl) now' k' = kvGet s now' k' := by
  unfold kvGet
  rw [find?_kvPut_ne h]

theorem kvGet_kvPut_self {s : Store} {now now' : Nat} {k : String} {v : Val}
    {ttl : Option Nat} :
    kvGet (kvPut s now k v ttl) now' k =
      if liveAt ⟨k, v, ttl.map (fun d => now + d)⟩ now' then some v else none := by
  unfold kvGet
  rw [find?_kvPut_self]

theorem kvGet_filter_ne {s : Store} {now : Nat} {k k' : String} (h : k' ≠ k) :
    kvGet (s.filter (fun e => !(e.key == k))) now k' = kvGet s now k' := by
  unfold kvGet
  rw [find?_filter_ne h]

/-! ### Inversion of `handleVote` -/

/-- A vote request that is not answered 200 leaves the store unchanged. -/
theorem handleVote_not_ok {now ms : Nat} {today : String} {req : VoteReq}
    {s : Store} (h : ¬((handleVote now ms today req s).1.isOk = true)) :
    (handleVote now ms today req s).2 = s := by
  simp only [handleVote] at h ⊢
  split_ifs at h ⊢ <;> first | rfl | exact absurd rfl h

/-- A vote request answered 200 passed validation, had no prior ledger
record, was under the rate limit, and produced exactly the four-put
store `votePuts` together with the counts read back from it. -/
theorem handleVote_ok {now ms : Nat} {today : String} {req : VoteReq}
    {s : Store} (h : (handleVote now ms today req s).1.isOk = true) :
    req.item_id ≠ "" ∧ req.token ≠ "" ∧
    (req.vote_type = "like" ∨ req.vote_type = "dislike") ∧
    kvGet s now (voteKey req.token req.item_id) = none ∧
    parseIntOr0 (kvGet s now (rateKey req.token today)) < 50 ∧
    handleVote now ms today req s =
      (.ok req.item_id
        (parseIntOr0 (kvGet (votePuts now ms today req s) now (likeKey req.item_id)))
        (parseIntOr0 (kvGet (votePuts now ms today req s) now (dislikeKey req.item_id))),
       votePuts now ms today req s) := by
  simp only [handleVote] at h ⊢
  split_ifs at h ⊢ with h1 h2 h3 h4
  · exact absurd h (by simp [VResp.isOk])
  · exact absurd h (by simp [VResp.isOk])
  · exact absurd h (by simp [VResp.isOk])
  · exact absurd h (by simp [VResp.isOk])
  · have h1' : ¬((req.item_id = "" ∨ req.token = "") ∨ req.vote_type = "") := by
      simpa using h1
    push_neg at h1'
    have h2' : req.vote_type = "like" ∨ req.vote_type = "dislike" :=
      or_iff_not_imp_left.mpr (by simpa using h2)
    exact ⟨h1'.1.1, h1'.1.2, h2', Option.not_isSome_iff_eq_none.mp h3,
      Nat.lt_of_not_le h4, rfl⟩

/-! ### Tracking a counter key through vote submissions -/

/-- The store holds the count `c` at key `k`: either no entry exists and
`c = 0`, or the entry is the non-expiring numeral `c`.  This is exactly
the state of the per-item counter keys the worker maintains. -/
def NumAt (s : Store) (k : String) (c : Nat) : Prop :=
  (c = 0 ∧ s.find? (fun e => e.key == k) = none) ∨
    s.find? (fun e => e.key == k) = some ⟨k, .num c, none⟩

theorem NumAt.parse {s : Store} {k : String} {c : Nat} (h : NumAt s k c)
    (now : Nat) : parseIntOr0 (kvGet s now k) = c := by
  rcases h with ⟨hc, hf⟩ | hf
  · rw [hc]
    unfold kvGet
    rw [hf]
    rfl
  · unfold kvGet
    rw [hf]
    rfl

theorem NumAt_kvPut_ne {s : Store} {now : Nat} {k k' : String} {v : Val}
    {ttl : Option Nat} {c : Nat} (h : k' ≠ k) (hn : NumAt s k' c) :
    NumAt (kvPut s now k v ttl) k' c := by
  unfold NumAt
  rw [find?_kvPut_ne h]
  exact hn

theorem NumAt_kvPut_self {s : Store} {now : Nat} {k : String} {c : Nat} :
    NumAt (kvPut s now k (.num c) none) k c :=
  Or.inr (by rw [find?_kvPut_self]; rfl)

/-- A counter key `${vtT}:${i}` (with `vtT` a valid vote type) after one
vote submission: incremented exactly when the submission was accepted for
item `i` with vote type `vtT`, untouched otherwise. -/
theorem handleVote_count_step {now ms : Nat} {today : String} {req : VoteReq}
    {s : Store} {vtT i : String} {c : Nat}
    (hvtT : vtT = "like" ∨ vtT = "dislike")
    (h : NumAt s (countKey vtT i) c) :
    NumAt (handleVote now ms today req s).2 (countKey vtT i)
      (c + (if (handleVote now ms today req s).1.isOk = true ∧
              req.item_id = i ∧ req.vote_type = vtT then 1 else 0)) := by
  have hld : (countKey vtT i).data.head? = some 'l' ∨
      (countKey vtT i).data.head? = some 'd' := by
    rcases hvtT with hv | hv <;> rw [hv]
    · exact Or.inl (by rw [countKey_like]; exact head_likeKey i)
    · exact Or.inr (by rw [countKey_dislike]; exact head_dislikeKey i)
  have hKvote : countKey vtT i ≠ voteKey req.token req.item_id := by
    rcases hld with hk | hk
    · exact ne_of_data_head _ _ hk (head_voteKey _ _) (by decide)
    · exact ne_of_data_head _ _ hk (head_voteKey _ _) (by decide)
  have hKrate : countKey vtT i ≠ rateKey req.token today := by
    rcases hld with hk | hk
    · exact ne_of_data_head _ _ hk (head_rateKey _ _) (by decide)
    · exact ne_of_data_head _ _ hk (head_rateKey _ _) (by decide)
  have hKmeta : countKey vtT i ≠ metaKey req.item_id ms := by
    rcases hld with hk | hk
    · exact ne_of_data_head _ _ hk (head_metaKey _ _) (by decide)
    · exact ne_of_data_head _ _ hk (head_metaKey _ _) (by decide)
  by_cases hok : (handleVote now ms today req s).1.isOk = true
  · obtain ⟨-, -, hvt, -, -, heq⟩ := handleVote_ok hok
    have hs2 : (handleVote now ms today req s).2 = votePuts now ms today req s := by
      rw [heq]
    rw [hs2]
    simp only [votePuts]
    by_cases hmatch : req.item_id = i ∧ req.vote_type = vtT
    · obtain ⟨hi, hv⟩ := hmatch
      have hckey : countKey req.vote_type req.item_id = countKey vtT i := by
        rw [hi, hv]
      rw [hckey, (NumAt_kvPut_ne hKvote h).parse now,
        if_pos ⟨hok, hi, hv⟩]
      exact NumAt_kvPut_ne hKmeta (NumAt_kvPut_ne hKrate NumAt_kvPut_self)
    · have hne : countKey vtT i ≠ countKey req.vote_type req.item_id := by
        intro hk
        rcases hvtT with hT | hT <;> rcases hvt with hv | hv <;>
            rw [hT] at hk <;> rw [hv] at hk
        · rw [countKey_like, countKey_like] at hk
          exact hmatch ⟨(likeKey_inj hk).symm, hv.trans hT.symm⟩
        · rw [countKey_like, countKey_dislike] at hk
          exact absurd hk (ne_of_data_head _ _ (head_likeKey i)
            (head_dislikeKey _) (by decide))
        · rw [countKey_dislike, countKey_like] at hk
          exact absurd hk (ne_of_data_head _ _ (head_dislikeKey i)
            (head_likeKey _) (by decide))
        · rw [countKey_dislike, countKey_dislike] at hk
          exact hmatch ⟨(dislikeKey_inj hk).symm, hv.trans hT.symm⟩
      rw [if_neg (fun hcon => hmatch hcon.2), Nat.add_zero]
      exact NumAt_kvPut_ne hKmeta (NumAt_kvPut_ne hKrate
        (NumAt_kvPut_ne hne (NumAt_kvPut_ne hKvote h)))
  · rw [handleVote_not_ok hok]
    simpa [hok] using h

/-- Over a sequence of accepted vote submissions, a counter key
`${vtT}:${i}` grows by exactly the number of calls voting `vtT` on `i`. -/
theorem runVotes_count (cs : List VoteCall) :
    ∀ (s : Store), allAccepted cs s = true →
    ∀ (vtT : String), (vtT = "like" ∨ vtT = "dislike") →
    ∀ (i : String) (c : Nat), NumAt s (countKey vtT i) c →
    NumAt (runVotes cs s) (countKey vtT i) (c + countVotes i vtT cs) := by
  induction cs with
  | nil =>
    intro s _ vtT _ i c h
    simpa [runVotes, countVotes] using h
  | cons c0 cs ih =>
    intro s hacc vtT hvtT i c h
    rw [allAccepted, Bool.and_eq_true] at hacc
    obtain ⟨hok, hrest⟩ := hacc
    have hstep := @handleVote_count_step c0.now c0.ms c0.today c0.req s
      vtT i c hvtT h
    rw [hok] at hstep
    have htail := ih _ hrest vtT hvtT i _ hstep
    rw [runVotes]
    by_cases hp : c0.req.item_id = i ∧ c0.req.vote_type = vtT
    · have hb : (c0.req.item_id == i && c0.req.vote_type == vtT) = true := by
        simp [hp.1, hp.2]
      have hcv : countVotes i vtT (c0 :: cs) = countVotes i vtT cs + 1 := by
        simp [countVotes, List.filter_cons, hb]
      rw [hcv]
      have : c + (countVotes i vtT cs + 1) =
          c + (if True ∧ c0.req.item_id = i ∧ c0.req.vote_type = vtT then 1 else 0) +
            countVotes i vtT cs := by
        simp [hp]
        omega
      rw [this]
      simpa using htail
    · have hb : (c0.req.item_id == i && c0.req.vote_type == vtT) = false := by
        rcases not_and_or.mp hp with hitem | hv
        · simp [beq_eq_false_iff_ne.mpr hitem]
        · simp [beq_eq_false_iff_ne.mpr hv]
      have hcv : countVotes i vtT (c0 :: cs) = countVotes i vtT cs := by
        simp [countVotes, List.filter_cons, hb]
      rw [hcv]
      have : c + countVotes i vtT cs =
          c + (if True ∧ c0.req.item_id = i ∧ c0.req.vote_type = vtT then 1 else 0) +
            countVotes i vtT cs := by
        simp [hp]
      rw [this]
      simpa using htail

/-- C2: starting from a store with no counter entries for item `i`, a
sequence of accepted vote submissions with `n` likes and `m` dislikes for
`i` leaves the Counter Store read of `i` at
`{likes = n, dislikes = m, net_score = n - m, total_votes = n + m}` —
the latter two computed from the counters, never stored. -/
theorem counts_after_accepted_votes (cs : List VoteCall) (s0 : Store)
    (i : String) (now : Nat)
    (hl : s0.find? (fun e => e.key == likeKey i) = none)
    (hd : s0.find? (fun e => e.key == dislikeKey i) = none)
    (hacc : allAccepted cs s0 = true) :
    readCounts (runVotes cs s0) now i =
      { item_id := i
        likes := countVotes i "like" cs
        dislikes := countVotes i "dislike" cs
        net_score := (countVotes i "like" cs : Int) - (countVotes i "dislike" cs : Int)
        total_votes := countVotes i "like" cs + countVotes i "dislike" cs } := by
  have hlike : NumAt s0 (countKey "like" i) 0 :=
    Or.inl ⟨rfl, by rw [countKey_like]; exact hl⟩
  have hdis : NumAt s0 (countKey "dislike" i) 0 :=
    Or.inl ⟨rfl, by rw [countKey_dislike]; exact hd⟩
  have h1 := runVotes_count cs s0 hacc "like" (Or.inl rfl) i 0 hlike
  have h2 := runVotes_count cs s0 hacc "dislike" (Or.inr rfl) i 0 hdis
  rw [countKey_like] at h1
  rw [countKey_dislike] at h2
  simp only [readCounts]
  rw [h1.parse now, h2.parse now]
  simp

/-- Three vote submissions used by witnesses: two likes and one dislike
on `itemA`, by three distinct tokens. -/
def demoVotes : List VoteCall :=
  [⟨100, 0, "2024-01-01", ⟨"itemA", "tok1", "like", none⟩⟩,
   ⟨200, 0, "2024-01-01", ⟨"itemA", "tok2", "like", none⟩⟩,
   ⟨300, 0, "2024-01-01", ⟨"itemA", "tok3", "dislike", none⟩⟩]

/-- Witness for C2: two accepted likes and one accepted dislike on
`itemA` from the empty store read back as
`{likes = 2, dislikes = 1, net_score = 1, total_votes = 3}`. -/
theorem counts_after_accepted_votes_witness :
    allAccepted demoVotes [] = true ∧
    readCounts (runVotes demoVotes []) 400 "itemA" = ⟨"itemA", 2, 1, 1, 3⟩ := by
  constructor
  · decide
  · rw [counts_after_accepted_votes demoVotes [] "itemA" 400 rfl rfl (by decide)]
    decide

/-- C1: after an accepted vote by `token` on `item`, a second submission
for the same pair — by either valid vote type, at any later time within
the 30-day ledger TTL — answers `Already voted` (409) and leaves the
store exactly as it was, so in particular the rate counter of `token` is
not consumed. -/
theorem dup_vote_rejected (now1 ms1 now2 ms2 : Nat) (today1 today2 : String)
    (d1 d2 : Option String) (token item vt1 vt2 : String) (s : Store)
    (hok : (handleVote now1 ms1 today1 ⟨item, token, vt1, d1⟩ s).1.isOk = true)
    (hvt2 : vt2 = "like" ∨ vt2 = "dislike")
    (hfresh : now2 < now1 + 60 * 60 * 24 * 30) :
    handleVote now2 ms2 today2 ⟨item, token, vt2, d2⟩
        (handleVote now1 ms1 today1 ⟨item, token, vt1, d1⟩ s).2 =
      (.alreadyVoted, (handleVote now1 ms1 today1 ⟨item, token, vt1, d1⟩ s).2) ∧
    VResp.status .alreadyVoted = 409 := by
  refine ⟨?_, rfl⟩
  obtain ⟨hi, ht, hvt1, hvote, hrate, heq⟩ := handleVote_ok hok
  dsimp only at hi ht hvt1 hvote hrate
  have hs2 : (handleVote now1 ms1 today1 ⟨item, token, vt1, d1⟩ s).2 =
      votePuts now1 ms1 today1 ⟨item, token, vt1, d1⟩ s := by rw [heq]
  rw [hs2]
  have hvc : voteKey token item ≠ countKey vt1 item := by
    rcases hvt1 with hv | hv <;> rw [hv]
    · rw [countKey_like]
      exact ne_of_data_head _ _ (head_voteKey _ _) (head_likeKey _) (by decide)
    · rw [countKey_dislike]
      exact ne_of_data_head _ _ (head_voteKey _ _) (head_dislikeKey _) (by decide)
  have hget : kvGet (votePuts now1 ms1 today1 ⟨item, token, vt1, d1⟩ s) now2
      (voteKey token item) = some (.str vt1) := by
    simp only [votePuts]
    rw [kvGet_kvPut_ne (ne_of_data_head _ _ (head_voteKey token item)
        (head_metaKey _ _) (by decide)),
      kvGet_kvPut_ne (ne_of_data_head _ _ (head_voteKey token item)
        (head_rateKey _ _) (by decide)),
      kvGet_kvPut_ne hvc, kvGet_kvPut_self]
    simp [liveAt, hfresh]
  have hib : (item == "") = false := beq_eq_false_iff_ne.mpr hi
  have htb : (token == "") = false := beq_eq_false_iff_ne.mpr ht
  have hv2e : (vt2 == "") = false := by
    rcases hvt2 with h | h <;> subst h <;> decide
  have hv2v : (vt2 == "like" || vt2 == "dislike") = true := by
    rcases hvt2 with h | h <;> subst h <;> decide
  simp only [handleVote]
  simp [hib, htb, hv2e, hv2v, hget]

/-- Witness for C1: `tok1` likes `itemA`, then retries with a dislike
and is answered `Already voted` with the store untouched. -/
theorem dup_vote_rejected_witness :
    (handleVote 100 0 "2024-01-01" ⟨"itemA", "tok1", "like", none⟩ []).1.isOk = true ∧
    handleVote 200 0 "2024-01-01" ⟨"itemA", "tok1", "dislike", none⟩
        (handleVote 100 0 "2024-01-01" ⟨"itemA", "tok1", "like", none⟩ []).2 =
      (.alreadyVoted,
        (handleVote 100 0 "2024-01-01" ⟨"itemA", "tok1", "like", none⟩ []).2) :=
  ⟨by decide,
    (dup_vote_rejected 100 0 200 0 "2024-01-01" "2024-01-01" none none
      "tok1" "itemA" "like" "dislike" [] (by decide) (Or.inr rfl) (by decide)).1⟩

/-- C3: a validated, non-duplicate vote submission whose token already
has a rate counter at 50 or more for `today` answers
`Rate limit exceeded` (429) and leaves the store exactly as it was: no
vote record, no counter increment, no rate-counter write. -/
theorem rate_limit_rejected (now ms : Nat) (today : String) (req : VoteReq)
    (s : Store)
    (hitem : req.item_id ≠ "") (htok : req.token ≠ "")
    (hvt : req.vote_type = "like" ∨ req.vote_type = "dislike")
    (hnodup : kvGet s now (voteKey req.token req.item_id) = none)
    (hcount : 50 ≤ parseIntOr0 (kvGet s now (rateKey req.token today))) :
    handleVote now ms today req s = (.rateLimited, s) ∧
    VResp.status .rateLimited = 429 := by
  refine ⟨?_, rfl⟩
  have hib : (req.item_id == "") = false := beq_eq_false_iff_ne.mpr hitem
  have htb : (req.token == "") = false := beq_eq_false_iff_ne.mpr htok
  have hve : (req.vote_type == "") = false := by
    rcases hvt with h | h <;> rw [h] <;> decide
  have hvv : (req.vote_type == "like" || req.vote_type == "dislike") = true := by
    rcases hvt with h | h <;> rw [h] <;> decide
  simp only [handleVote]
  simp [hib, htb, hve, hvv, hnodup, hcount]

/-- Witness for C3: a store whose rate counter for `tokA` already reads
50 today rejects `tokA`'s next vote with the store unchanged. -/
theorem rate_limit_rejected_witness :
    50 ≤ parseIntOr0 (kvGet [⟨rateKey "tokA" "2024-01-01", .num 50, some 90000⟩]
        1000 (rateKey "tokA" "2024-01-01")) ∧
    handleVote 1000 0 "2024-01-01" ⟨"itemX", "tokA", "like", none⟩
        [⟨rateKey "tokA" "2024-01-01", .num 50, some 90000⟩] =
      (.rateLimited, [⟨rateKey "tokA" "2024-01-01", .num 50, some 90000⟩]) :=
  ⟨by decide,
    (rate_limit_rejected 1000 0 "2024-01-01" ⟨"itemX", "tokA", "like", none⟩
      [⟨rateKey "tokA" "2024-01-01", .num 50, some 90000⟩]
      (by decide) (by decide) (Or.inl rfl) (by decide) (by decide)).1⟩

/-- Fifty accepted like votes by token `tokA` on fifty distinct items,
all on day `2024-01-01`, one second apart. -/
def fifty : List VoteCall :=
  (List.range 50).map
    (fun n => ⟨1000 + n, n, "2024-01-01", ⟨"item" ++ Nat.repr n, "tokA", "like", none⟩⟩)

/-- The store after the fifty votes of `fifty`. -/
def s50 : Store := runVotes fifty []

set_option maxRecDepth 400000 in
/-- Counterexample to C7: the rate limit does not apply over a rolling
24-hour window — it resets at the calendar-day boundary.  `tokA` casts
50 accepted votes at times 1000..1049; at time 2000 (within 24 hours of
every one of those writes, whose counter entry is still live) a further
vote is rejected when `today` is still `2024-01-01` but accepted when
`today` has rolled over to `2024-01-02`, because the counter key is
derived from the calendar date. -/
theorem rate_window_not_rolling :
    allAccepted fifty [] = true ∧
    (fifty.all (fun c => 1000 ≤ c.now && c.now < 1050)) = true ∧
    2000 < 1000 + 60 * 60 * 24 ∧
    (handleVote 2000 0 "2024-01-01" ⟨"fresh", "tokA", "like", none⟩ s50).1 =
      .rateLimited ∧
    (handleVote 2000 0 "2024-01-02" ⟨"fresh", "tokA", "like", none⟩ s50).1.isOk =
      true :=
  ⟨by decide, by decide, by decide, by decide, by decide⟩

/-- C7 (amended): on every accepted vote the rate counter for
`(token, today)` is re-persisted with a TTL of 24 hours measured from
that write, while the rate counters of every other day string are left
untouched — the window is the calendar day named in the key, expiring
24 hours after its last write, not a sliding 24-hour window. -/
theorem rate_ttl_measured_from_write (now ms : Nat) (today : String)
    (req : VoteReq) (s : Store)
    (hok : (handleVote now ms today req s).1.isOk = true) :
    (handleVote now ms today req s).2.find?
        (fun e => e.key == rateKey req.token today) =
      some ⟨rateKey req.token today,
        .num (parseIntOr0 (kvGet s now (rateKey req.token today)) + 1),
        some (now + 60 * 60 * 24)⟩ ∧
    ∀ d : String, d ≠ today →
      (handleVote now ms today req s).2.find?
          (fun e => e.key == rateKey req.token d) =
        s.find? (fun e => e.key == rateKey req.token d) := by
  obtain ⟨-, -, hvt, -, -, heq⟩ := handleVote_ok hok
  have hs2 : (handleVote now ms today req s).2 =
      votePuts now ms today req s := by rw [heq]
  rw [hs2]
  have hvc : ∀ t d : String, rateKey t d ≠ countKey req.vote_type req.item_id := by
    intro t d
    rcases hvt with hv | hv <;> rw [hv]
    · rw [countKey_like]
      exact ne_of_data_head _ _ (head_rateKey _ _) (head_likeKey _) (by decide)
    · rw [countKey_dislike]
      exact ne_of_data_head _ _ (head_rateKey _ _) (head_dislikeKey _) (by decide)
  constructor
  · simp only [votePuts]
    rw [find?_kvPut_ne (ne_of_data_head _ _ (head_rateKey req.token today)
        (head_metaKey _ _) (by decide)),
      find?_kvPut_self]
    rfl
  · intro d hd
    simp only [votePuts]
    rw [find?_kvPut_ne (ne_of_data_head _ _ (head_rateKey req.token d)
        (head_metaKey _ _) (by decide)),
      find?_kvPut_ne (fun h => hd (rateKey_day_inj h)),
      find?_kvPut_ne (hvc req.token d),
      find?_kvPut_ne (ne_of_data_head _ _ (head_rateKey req.token d)
        (head_voteKey _ _) (by decide))]

/-- Witness for C7 (amended): an accepted vote at time 100 leaves the
rate counter for `(tok1, 2024-01-01)` at 1 with expiry `100 + 86400`. -/
theorem rate_ttl_measured_from_write_witness :
    (handleVote 100 0 "2024-01-01" ⟨"itemA", "tok1", "like", none⟩ []).1.isOk
      = true ∧
    (handleVote 100 0 "2024-01-01" ⟨"itemA", "tok1", "like", none⟩ []).2.find?
        (fun e => e.key == rateKey "tok1" "2024-01-01") =
      some ⟨rateKey "tok1" "2024-01-01", .num 1, some (100 + 60 * 60 * 24)⟩ := by
  constructor
  · decide
  · have h := (rate_ttl_measured_from_write 100 0 "2024-01-01"
      ⟨"itemA", "tok1", "like", none⟩ [] (by decide)).1
    rw [h]
    decide

/-- A store holding only a live but stale cache entry for item `x`. -/
def staleCacheStore : Store :=
  [⟨cacheKey "x", .summary ⟨"x", 0, 0, 0, 0⟩, some 1000⟩]

/-- Counterexample to C8: an accepted vote neither invalidates nor
refreshes the cache entry of the voted item.  Voting on `x` over a store
holding a live cache entry `{likes = 0, dislikes = 0}` answers 200 with
the updated totals, yet the stale cache entry is still served afterwards:
the very next single-item read is a cache hit returning the pre-vote
counts. -/
theorem vote_does_not_touch_cache :
    (handleVote 500 0 "2024-01-01" ⟨"x", "tokA", "like", none⟩
        staleCacheStore).1 = .ok "x" 1 0 ∧
    kvGet (handleVote 500 0 "2024-01-01" ⟨"x", "tokA", "like", none⟩
        staleCacheStore).2 500 (cacheKey "x") =
      some (.summary ⟨"x", 0, 0, 0, 0⟩) ∧
    (getVoteCounts 500 "x"
        (handleVote 500 0 "2024-01-01" ⟨"x", "tokA", "like", none⟩
          staleCacheStore).2).1 =
      .hit (.summary ⟨"x", 0, 0, 0, 0⟩) :=
  ⟨by decide, by decide, by decide⟩

/-- C8 (amended): an accepted vote leaves every cache entry exactly as
it was — no invalidation, no refresh — and the 200 response carries the
updated totals because `handleVote` re-reads both counters directly from
the post-write store, bypassing the cache. -/
theorem vote_response_fresh_cache_untouched (now ms : Nat) (today : String)
    (req : VoteReq) (s : Store)
    (hok : (handleVote now ms today req s).1.isOk = true) :
    (∀ (j : String) (now' : Nat),
      kvGet (handleVote now ms today req s).2 now' (cacheKey j) =
        kvGet s now' (cacheKey j)) ∧
    (handleVote now ms today req s).1 =
      .ok req.item_id
        (parseIntOr0 (kvGet (handleVote now ms today req s).2 now
          (likeKey req.item_id)))
        (parseIntOr0 (kvGet (handleVote now ms today req s).2 now
          (dislikeKey req.item_id))) := by
  obtain ⟨-, -, hvt, -, -, heq⟩ := handleVote_ok hok
  constructor
  · intro j now'
    have hs2 : (handleVote now ms today req s).2 =
        votePuts now ms today req s := by rw [heq]
    rw [hs2]
    have hvc : cacheKey j ≠ countKey req.vote_type req.item_id := by
      rcases hvt with hv | hv <;> rw [hv]
      · rw [countKey_like]
        exact ne_of_data_head _ _ (head_cacheKey _) (head_likeKey _) (by decide)
      · rw [countKey_dislike]
        exact ne_of_data_head _ _ (head_cacheKey _) (head_dislikeKey _) (by decide)
    simp only [votePuts]
    rw [kvGet_kvPut_ne (ne_of_data_head _ _ (head_cacheKey j)
        (head_metaKey _ _) (by decide)),
      kvGet_kvPut_ne (ne_of_data_head _ _ (head_cacheKey j)
        (head_rateKey _ _) (by decide)),
      kvGet_kvPut_ne hvc,
      kvGet_kvPut_ne (ne_of_data_head _ _ (head_cacheKey j)
        (head_voteKey _ _) (by decide))]
  · rw [heq]

/-- Witness for C8 (amended): the vote of the C8 counterexample leaves
the stale cache entry of `x` in place while answering with the fresh
counts. -/
theorem vote_response_fresh_cache_untouched_witness :
    (handleVote 500 0 "2024-01-01" ⟨"x", "tokA", "like", none⟩
        staleCacheStore).1.isOk = true ∧
    kvGet (handleVote 500 0 "2024-01-01" ⟨"x", "tokA", "like", none⟩
        staleCacheStore).2 500 (cacheKey "x") =
      kvGet staleCacheStore 500 (cacheKey "x") :=
  ⟨by decide,
    (vote_response_fresh_cache_untouched 500 0 "2024-01-01"
      ⟨"x", "tokA", "like", none⟩ staleCacheStore (by decide)).1 "x" 500⟩

/-! ### Sortedness of the rankings -/

theorem mem_insertLe {α : Type} (le : α → α → Bool) (x : α) (l : List α) :
    ∀ z, z ∈ insertLe le x l ↔ z = x ∨ z ∈ l := by
  induction l with
  | nil => intro z; simp [insertLe]
  | cons y ys ih =>
    intro z
    rw [insertLe]
    by_cases hxy : le x y = true
    · simp [hxy, or_comm, or_assoc, or_left_comm]
    · simp only [if_neg hxy, List.mem_cons, ih]
      constructor
      · rintro (h | h | h)
        · exact Or.inr (Or.inl h)
        · exact Or.inl h
        · exact Or.inr (Or.inr h)
      · rintro (h | h | h)
        · exact Or.inr (Or.inl h)
        · exact Or.inl h
        · exact Or.inr (Or.inr h)

theorem pairwise_insertLe {α : Type} {le : α → α → Bool}
    (htot : ∀ a b, (le a b || le b a) = true)
    (htrans : ∀ a b c, le a b = true → le b c = true → le a c = true)
    (x : α) (l : List α) (h : l.Pairwise (fun a b => le a b = true)) :
    (insertLe le x l).Pairwise (fun a b => le a b = true) := by
  induction l with
  | nil => simp [insertLe]
  | cons y ys ih =>
    rw [List.pairwise_cons] at h
    obtain ⟨hy, hys⟩ := h
    rw [insertLe]
    by_cases hxy : le x y = true
    · rw [if_pos hxy]
      refine List.Pairwise.cons ?_ (List.Pairwise.cons hy hys)
      intro z hz
      rcases List.mem_cons.mp hz with hz | hz
      · rw [hz]; exact hxy
      · exact htrans x y z hxy (hy z hz)
    · rw [if_neg hxy]
      have hyx : le y x = true := by
        have := htot x y
        rw [Bool.eq_false_iff.mpr hxy] at this
        simpa using this
      refine List.Pairwise.cons ?_ (ih hys)
      intro z hz
      rcases (mem_insertLe le x ys z).mp hz with hz | hz
      · rw [hz]; exact hyx
      · exact hy z hz

theorem pairwise_sortBy {α : Type} {le : α → α → Bool}
    (htot : ∀ a b, (le a b || le b a) = true)
    (htrans : ∀ a b c, le a b = true → le b c = true → le a c = true)
    (l : List α) :
    (sortBy le l).Pairwise (fun a b => le a b = true) := by
  induction l with
  | nil => simp [sortBy]
  | cons x xs ih => exact pairwise_insertLe htot htrans x _ ih

theorem mem_sortBy {α : Type} (le : α → α → Bool) (l : List α) :
    ∀ z, z ∈ sortBy le l ↔ z ∈ l := by
  induction l with
  | nil => intro z; simp [sortBy]
  | cons x xs ih =>
    intro z
    rw [sortBy, mem_insertLe, ih, List.mem_cons]

/-- C4: `getRankings` is sorted by descending net score: whenever
position `j` comes before position `k` in the output, the item at `j`
has net score at least that of the item at `k` (tie order among equal
net scores is not constrained). -/
theorem rankings_sorted_desc (now : Nat) (s : Store) (j k : Nat)
    (hjk : j < k) (hk : k < (getRankings now s).items.length) :
    ((getRankings now s).items.getD k ⟨"", 0, 0, 0, 0⟩).net_score ≤
      ((getRankings now s).items.getD j ⟨"", 0, 0, 0, 0⟩).net_score := by
  have htot : ∀ a b : Summary, (rankLe a b || rankLe b a) = true := by
    intro a b
    rcases le_total b.net_score a.net_score with h | h
    · simp [rankLe, h]
    · simp [rankLe, h]
  have htrans : ∀ a b c : Summary, rankLe a b = true → rankLe b c = true →
      rankLe a c = true := by
    intro a b c hab hbc
    rw [rankLe, decide_eq_true_eq] at hab hbc ⊢
    exact le_trans hbc hab
  have hsorted : List.Sorted (fun a b => rankLe a b = true)
      (getRankings now s).items := by
    simp only [getRankings]
    exact pairwise_sortBy htot htrans _
  have hj : j < (getRankings now s).items.length := lt_trans hjk hk
  have hrel := @List.Sorted.rel_get_of_lt _ _ _ hsorted
    ⟨j, hj⟩ ⟨k, hk⟩ (by exact hjk)
  rw [rankLe, decide_eq_true_eq] at hrel
  rw [List.getD_eq_getElem _ _ hj, List.getD_eq_getElem _ _ hk]
  simpa [List.get_eq_getElem] using hrel

/-- A store with two ranked items: `b` has net score 3, `a` has net
score -1. -/
def rankedStore : Store :=
  [⟨likeKey "a", .num 1, none⟩, ⟨likeKey "b", .num 3, none⟩,
   ⟨dislikeKey "a", .num 2, none⟩]

/-- Witness for C4: in the two-item rankings of `rankedStore`, the item
at position 1 has net score at most that of the item at position 0. -/
theorem rankings_sorted_desc_witness :
    1 < (getRankings 0 rankedStore).items.length ∧
    ((getRankings 0 rankedStore).items.getD 1 ⟨"", 0, 0, 0, 0⟩).net_score ≤
      ((getRankings 0 rankedStore).items.getD 0 ⟨"", 0, 0, 0, 0⟩).net_score :=
  ⟨by decide, rankings_sorted_desc 0 rankedStore 0 1 (by decide) (by decide)⟩

/-- C6: `getStats` reports `total_votes = total_likes + total_dislikes`
and `like_percentage = round(total_likes / total_votes * 100)` when any
votes exist, else `0`; in particular 3 likes and 1 dislike give 75. -/
theorem stats_totals_and_percentage (now : Nat) (s : Store) :
    (getStats now s).total_votes =
      (getStats now s).total_likes + (getStats now s).total_dislikes ∧
    (getStats now s).like_percentage =
      (if 0 < (getStats now s).total_likes + (getStats now s).total_dislikes then
        round (((getStats now s).total_likes : ℚ) /
          (((getStats now s).total_likes : ℚ) +
            ((getStats now s).total_dislikes : ℚ)) * 100)
      else 0) ∧
    ((getStats now s).total_likes = 3 → (getStats now s).total_dislikes = 1 →
      (getStats now s).like_percentage = 75) := by
  refine ⟨rfl, rfl, ?_⟩
  intro h3 h1
  have h2 : (getStats now s).like_percentage =
      (if 0 < (getStats now s).total_likes + (getStats now s).total_dislikes then
        round (((getStats now s).total_likes : ℚ) /
          (((getStats now s).total_likes : ℚ) +
            ((getStats now s).total_dislikes : ℚ)) * 100)
      else 0) := rfl
  rw [h2, h3, h1]
  norm_num [round_eq]

/-- A store with one item holding 3 likes and 1 dislike. -/
def statStore : Store :=
  [⟨likeKey "a", .num 3, none⟩, ⟨dislikeKey "a", .num 1, none⟩]

/-- Witness for C6: `statStore` reports 3 likes, 1 dislike, 4 total
votes, and a like percentage of 75. -/
theorem stats_totals_and_percentage_witness :
    (getStats 0 statStore).total_likes = 3 ∧
    (getStats 0 statStore).total_dislikes = 1 ∧
    (getStats 0 statStore).total_votes = 4 ∧
    (getStats 0 statStore).like_percentage = 75 :=
  ⟨by decide, by decide, by decide,
    (stats_totals_and_percentage 0 statStore).2.2 (by decide) (by decide)⟩

/-! ### Enumeration by `like:` keys only -/

theorem like_listed_data {k : String} (h : strHasPref "like:" k = true) :
    k.data = "like:".data ++ k.data.drop 5 := by
  rw [strHasPref] at h
  have hp : "like:".data <+: k.data := List.isPrefixOf_iff_prefix.mp h
  have h2 := List.prefix_iff_eq_append.mp hp
  have hlen : ("like:".data).length = 5 := rfl
  rw [hlen] at h2
  exact h2.symm

theorem like_listed_head {k : String} (h : strHasPref "like:" k = true) :
    k.data.head? = some 'l' := by
  rw [like_listed_data h]
  rfl

theorem like_listed_eq {k i : String} (h : strHasPref "like:" k = true)
    (hi : String.mk (k.data.drop 5) = i) : k = likeKey i := by
  apply String.ext
  rw [like_listed_data h]
  have hdrop : k.data.drop 5 = i.data := congrArg String.data hi
  rw [hdrop, likeKey, String.data_append]

theorem mem_kvList {s : Store} {now : Nat} {p k : String}
    (h : k ∈ kvList s now p) :
    ∃ e ∈ s, e.key = k ∧ strHasPref p e.key = true ∧ liveAt e now = true := by
  unfold kvList at h
  obtain ⟨e, he, hek⟩ := List.mem_map.mp h
  obtain ⟨hes, hpl⟩ := List.mem_filter.mp he
  rw [Bool.and_eq_true] at hpl
  exact ⟨e, hes, hek, hpl.1, hpl.2⟩

/-- If the store has no entry under `like:${i}`, no listed `like:` key
reconstructs the item id `i`. -/
theorem kvList_like_item_ne {s : Store} {now : Nat} {i : String}
    (h0 : s.find? (fun e => e.key == likeKey i) = none) :
    ∀ k ∈ kvList s now "like:", String.mk (k.data.drop 5) ≠ i := by
  intro k hk heq
  obtain ⟨e, hes, hek, hpref, -⟩ := mem_kvList hk
  rw [hek] at hpref
  have hkey : k = likeKey i := like_listed_eq hpref heq
  have hnone := List.find?_eq_none.mp h0 e hes
  exact hnone (beq_iff_eq.mpr (hek.trans hkey))

/-- Vote submissions that never like item `i` cannot create the
`like:${i}` counter key. -/
theorem runVotes_no_like (cs : List VoteCall) :
    ∀ (s : Store) (i : String),
    (∀ c ∈ cs, c.req.item_id = i → c.req.vote_type = "dislike") →
    s.find? (fun e => e.key == likeKey i) = none →
    (runVotes cs s).find? (fun e => e.key == likeKey i) = none := by
  induction cs with
  | nil => intro s i _ h0; exact h0
  | cons c0 cs ih =>
    intro s i hvt h0
    rw [runVotes]
    apply ih _ _ (fun c hc => hvt c (List.mem_cons_of_mem _ hc))
    by_cases hok : (handleVote c0.now c0.ms c0.today c0.req s).1.isOk = true
    · obtain ⟨-, -, hv, -, -, heq⟩ := handleVote_ok hok
      have hs2 : (handleVote c0.now c0.ms c0.today c0.req s).2 =
          votePuts c0.now c0.ms c0.today c0.req s := by rw [heq]
      rw [hs2]
      simp only [votePuts]
      have hck : likeKey i ≠ countKey c0.req.vote_type c0.req.item_id := by
        rcases hv with hv | hv <;> rw [hv]
        · rw [countKey_like]
          intro he
          have hii := likeKey_inj he
          have hd := hvt c0 (List.mem_cons_self _ _) hii.symm
          rw [hv] at hd
          exact absurd hd (by decide)
        · rw [countKey_dislike]
          exact ne_of_data_head _ _ (head_likeKey i) (head_dislikeKey _) (by decide)
      rw [find?_kvPut_ne (ne_of_data_head _ _ (head_likeKey i)
            (head_metaKey _ _) (by decide)),
        find?_kvPut_ne (ne_of_data_head _ _ (head_likeKey i)
            (head_rateKey _ _) (by decide)),
        find?_kvPut_ne hck,
        find?_kvPut_ne (ne_of_data_head _ _ (head_likeKey i)
            (head_voteKey _ _) (by decide))]
      exact h0
    · rw [handleVote_not_ok hok]
      exact h0

theorem rankings_omit_no_like {s : Store} {now : Nat} {i : String}
    (h0 : s.find? (fun e => e.key == likeKey i) = none) :
    ∀ x ∈ (getRankings now s).items, x.item_id ≠ i := by
  intro x hx heq
  simp only [getRankings] at hx
  rw [mem_sortBy] at hx
  obtain ⟨k, hk, hxk⟩ := List.mem_map.mp hx
  have hid : x.item_id = String.mk (k.data.drop 5) := by
    rw [← hxk]
    rfl
  exact kvList_like_item_ne h0 k hk (by rw [← hid, heq])

theorem foldl_congr_mem {α β : Type} {l : List α} {f g : β → α → β}
    (h : ∀ a ∈ l, ∀ b, f b a = g b a) : ∀ b, l.foldl f b = l.foldl g b := by
  induction l with
  | nil => intro b; rfl
  | cons a l ih =>
    intro b
    rw [List.foldl_cons, List.foldl_cons, h a (List.mem_cons_self _ _)]
    exact ih (fun a ha => h a (List.mem_cons_of_mem _ ha)) _

/-- Dropping the `dislike:${i}` entry does not change which keys the
`like:` listing returns. -/
theorem kvList_filter_dislike (s : Store) (now : Nat) (i : String) :
    kvList (s.filter (fun e => !(e.key == dislikeKey i))) now "like:" =
      kvList s now "like:" := by
  unfold kvList
  congr 1
  rw [List.filter_filter]
  apply List.filter_congr
  intro e _
  by_cases hp : (strHasPref "like:" e.key && liveAt e now) = true
  · have hpref : strHasPref "like:" e.key = true := by
      have h2 := hp
      rw [Bool.and_eq_true] at h2
      exact h2.1
    have hne : (e.key == dislikeKey i) = false := beq_eq_false_iff_ne.mpr
      (ne_of_data_head _ _ (like_listed_head hpref) (head_dislikeKey i)
        (by decide))
    rw [hp, hne]
    rfl
  · rw [Bool.eq_false_iff.mpr hp, Bool.false_and]

theorem statsFold_filter (s : Store) (now : Nat) (i : String)
    (h0 : s.find? (fun e => e.key == likeKey i) = none) :
    statsFold (s.filter (fun e => !(e.key == dislikeKey i))) now
        (kvList s now "like:") =
      statsFold s now (kvList s now "like:") := by
  unfold statsFold
  apply foldl_congr_mem
  intro k hk acc
  have hne := kvList_like_item_ne h0 k hk
  simp only [kvGet_filter_ne (ne_of_data_head _ _
      (head_likeKey (String.mk (k.data.drop 5))) (head_dislikeKey i)
      (by decide)),
    kvGet_filter_ne (fun he => hne (dislikeKey_inj he))]

/-- C9: the aggregators enumerate items from the `like:` keys only.
After any vote sequence that never likes item `i` (so no `like:${i}`
counter was ever written, as with an item that only receives dislikes),
`i` is absent from the rankings, and the statistics are computed exactly
as if `i`'s dislike counter were not in the store at all — its dislikes
are excluded from `total_dislikes`, and it is not counted in
`total_items`. -/
theorem dislike_only_item_invisible (cs : List VoteCall) (s0 : Store)
    (now : Nat) (i : String)
    (hvt : ∀ c ∈ cs, c.req.item_id = i → c.req.vote_type = "dislike")
    (h0 : s0.find? (fun e => e.key == likeKey i) = none) :
    (runVotes cs s0).find? (fun e => e.key == likeKey i) = none ∧
    (∀ x ∈ (getRankings now (runVotes cs s0)).items, x.item_id ≠ i) ∧
    getStats now (runVotes cs s0) =
      getStats now ((runVotes cs s0).filter (fun e => !(e.key == dislikeKey i))) := by
  have hrun := runVotes_no_like cs s0 i hvt h0
  refine ⟨hrun, rankings_omit_no_like hrun, ?_⟩
  simp only [getStats]
  rw [kvList_filter_dislike, statsFold_filter _ _ _ hrun]

/-- Witness for C9: a single accepted dislike on `x` from the empty
store leaves `x` out of the rankings entirely and yields all-zero
statistics, identical to a store without `x`'s dislike counter. -/
theorem dislike_only_item_invisible_witness :
    (getRankings 200 (runVotes
        [⟨100, 0, "2024-01-01", ⟨"x", "tok1", "dislike", none⟩⟩] [])).items = [] ∧
    getStats 200 (runVotes
        [⟨100, 0, "2024-01-01", ⟨"x", "tok1", "dislike", none⟩⟩] []) =
      getStats 200 ((runVotes
        [⟨100, 0, "2024-01-01", ⟨"x", "tok1", "dislike", none⟩⟩] []).filter
          (fun e => !(e.key == dislikeKey "x"))) :=
  ⟨by decide,
    (dislike_only_item_invisible
      [⟨100, 0, "2024-01-01", ⟨"x", "tok1", "dislike", none⟩⟩] [] 200 "x"
      (by decide) rfl).2.2⟩

/-! ### The batch endpoint -/

/-- The resolution of one item id per the single-item contract: the
cached blob when a live cache entry exists, otherwise the freshly
computed summary. -/
def singleResolve (s : Store) (now : Nat) (id : String) : Val :=
  match kvGet s now (cacheKey id) with
  | some v => v
  | none => .summary (readCounts s now id)

theorem objAssign_of_not_mem {m : List (String × Val)} {k : String} (v : Val)
    (h : ∀ p ∈ m, p.1 ≠ k) : objAssign m k v = m ++ [(k, v)] := by
  unfold objAssign
  rw [if_neg]
  intro hc
  obtain ⟨p, hp, hpk⟩ := List.any_eq_true.mp hc
  exact h p hp (beq_iff_eq.mp hpk)

theorem objAssign_mem {m : List (String × Val)} {k : String} {v : Val}
    {p : String × Val} (h : p ∈ objAssign m k v) : p ∈ m ∨ p.1 = k := by
  unfold objAssign at h
  split_ifs at h
  · obtain ⟨q, hq, hqp⟩ := List.mem_map.mp h
    by_cases hqk : (q.1 == k) = true
    · rw [if_pos hqk] at hqp
      exact Or.inr (by rw [← hqp])
    · rw [if_neg hqk] at hqp
      exact Or.inl (hqp ▸ hq)
  · rcases List.mem_append.mp h with h | h
    · exact Or.inl h
    · rw [List.mem_singleton.mp h]
      exact Or.inr rfl

/-- Unfolding of one cache-miss step of the batch loop. -/
theorem batchLoop_cons_none (now : Nat) (id : String) (rest : List String)
    (scur : Store) (acc : List (String × Val)) (h m : Nat)
    (hc : kvGet scur now (cacheKey (jsTrim id)) = none) :
    batchLoop now (id :: rest) scur acc h m =
      batchLoop now rest
        (kvPut scur now (cacheKey (jsTrim id))
          (.summary (readCounts scur now (jsTrim id))) (some 60))
        (objAssign acc (jsTrim id)
          (.summary (readCounts scur now (jsTrim id)))) h (m + 1) := by
  rw [batchLoop, hc]

/-- Unfolding of one cache-hit step of the batch loop. -/
theorem batchLoop_cons_some (now : Nat) (id : String) (rest : List String)
    (scur : Store) (acc : List (String × Val)) (h m : Nat) (v : Val)
    (hc : kvGet scur now (cacheKey (jsTrim id)) = some v) :
    batchLoop now (id :: rest) scur acc h m =
      batchLoop now rest scur (objAssign acc (jsTrim id) v) (h + 1) m := by
  rw [batchLoop, hc]

/-- The batch loop on already-trimmed, pairwise-distinct ids whose accumulated
results never clash with the remaining ids: it appends, for each id in
order, its single-item resolution against the starting store. -/
theorem batchLoop_spec (now : Nat) (s : Store) :
    ∀ (ids : List String) (scur : Store) (acc : List (String × Val)) (h m : Nat),
    (∀ id ∈ ids, jsTrim id = id) →
    ids.Nodup →
    (∀ id ∈ ids, ∀ p ∈ acc, p.1 ≠ id) →
    (∀ id ∈ ids,
      kvGet scur now (cacheKey id) = kvGet s now (cacheKey id) ∧
      kvGet scur now (likeKey id) = kvGet s now (likeKey id) ∧
      kvGet scur now (dislikeKey id) = kvGet s now (dislikeKey id)) →
    ∃ h2 m2 s2,
      batchLoop now ids scur acc h m =
        (acc ++ ids.map (fun id => (id, singleResolve s now id)), h2, m2, s2) := by
  intro ids
  induction ids with
  | nil =>
    intro scur acc h m _ _ _ _
    exact ⟨h, m, scur, by simp [batchLoop]⟩
  | cons id rest ih =>
    intro scur acc h m htrim hnd hdisj hinv
    have ht : jsTrim id = id := htrim id (List.mem_cons_self _ _)
    have hnd' := List.nodup_cons.mp hnd
    have hid_inv := hinv id (List.mem_cons_self _ _)
    have hrest_ne : ∀ id' ∈ rest, id ≠ id' := by
      intro id' hid' he
      exact hnd'.1 (he ▸ hid')
    rcases hc : kvGet scur now (cacheKey id) with - | v
    · -- cache miss
      have hcs : kvGet s now (cacheKey id) = none := by rw [← hid_inv.1, hc]
      have hread : readCounts scur now id = readCounts s now id := by
        unfold readCounts
        rw [hid_inv.2.1, hid_inv.2.2]
      have hres : Val.summary (readCounts scur now id) = singleResolve s now id := by
        rw [hread, singleResolve, hcs]
      have hacc2 : objAssign acc id (.summary (readCounts scur now id)) =
          acc ++ [(id, singleResolve s now id)] := by
        rw [objAssign_of_not_mem _ (hdisj id (List.mem_cons_self _ _)), hres]
      rw [batchLoop_cons_none now id rest scur acc h m (by rw [ht]; exact hc),
        ht, hacc2]
      obtain ⟨h2, m2, s2, hrec⟩ := ih
        (kvPut scur now (cacheKey id) (.summary (readCounts scur now id)) (some 60))
        (acc ++ [(id, singleResolve s now id)]) h (m + 1)
        (fun i hi => htrim i (List.mem_cons_of_mem _ hi))
        hnd'.2
        (by
          intro id' hid' p hp
          rcases List.mem_append.mp hp with hp | hp
          · exact hdisj id' (List.mem_cons_of_mem _ hid') p hp
          · rw [List.mem_singleton.mp hp]
            exact hrest_ne id' hid')
        (by
          intro id' hid'
          have hi2 := hinv id' (List.mem_cons_of_mem _ hid')
          refine ⟨?_, ?_, ?_⟩
          · rw [kvGet_kvPut_ne
              (fun he => hrest_ne id' hid' (cacheKey_inj he).symm), hi2.1]
          · rw [kvGet_kvPut_ne (ne_of_data_head _ _ (head_likeKey id')
              (head_cacheKey id) (by decide)), hi2.2.1]
          · rw [kvGet_kvPut_ne (ne_of_data_head _ _ (head_dislikeKey id')
              (head_cacheKey id) (by decide)), hi2.2.2])
      refine ⟨h2, m2, s2, ?_⟩
      rw [hrec]
      simp
    · -- cache hit
      have hv : singleResolve s now id = v := by
        rw [singleResolve, ← hid_inv.1, hc]
      have hacc2 : objAssign acc id v = acc ++ [(id, singleResolve s now id)] := by
        rw [objAssign_of_not_mem _ (hdisj id (List.mem_cons_self _ _)), hv]
      rw [batchLoop_cons_some now id rest scur acc h m v (by rw [ht]; exact hc),
        ht, hacc2]
      obtain ⟨h2, m2, s2, hrec⟩ := ih scur
        (acc ++ [(id, singleResolve s now id)]) (h + 1) m
        (fun i hi => htrim i (List.mem_cons_of_mem _ hi))
        hnd'.2
        (by
          intro id' hid' p hp
          rcases List.mem_append.mp hp with hp | hp
          · exact hdisj id' (List.mem_cons_of_mem _ hid') p hp
          · rw [List.mem_singleton.mp hp]
            exact hrest_ne id' hid')
        (fun id' hid' => hinv id' (List.mem_cons_of_mem _ hid'))
      refine ⟨h2, m2, s2, ?_⟩
      rw [hrec]
      simp

/-- Counterexample to C5: requesting the same id twice
(`ids = "a,a"`) yields a results object with a single entry while the
reported count is 2 — the response is not one entry per requested id. -/
theorem batch_duplicate_ids_collapse :
    (getBatchVoteCounts 0 "a,a" []).1 =
      .ok [("a", .summary ⟨"a", 0, 0, 0, 0⟩)] 2 1 1 := by decide

/-- C5 (amended): for a batch read whose requested ids are pairwise
distinct and already trimmed, the response maps each requested id, in
order, to exactly its single-item resolution (the cached blob on a live
cache entry, else the freshly computed summary — what `getVoteCounts`
would serve), and the reported count equals the number of requested
ids.  Without the distinctness/trimming proviso this fails (see the
duplicate-id counterexample). -/
theorem batch_ok_distinct (now : Nat) (s : Store) (idsParam : String)
    (hne : idsParam ≠ "")
    (hnz : parsedIds idsParam ≠ [])
    (hlen : (parsedIds idsParam).length ≤ 200)
    (htrim : ∀ id ∈ parsedIds idsParam, jsTrim id = id)
    (hnd : (parsedIds idsParam).Nodup) :
    (∃ hits misses s2,
      getBatchVoteCounts now idsParam s =
        (.ok ((parsedIds idsParam).map (fun id => (id, singleResolve s now id)))
          (parsedIds idsParam).length hits misses, s2)) ∧
    (∀ id ∈ parsedIds idsParam,
      (getVoteCounts now id s).1 = .hit (singleResolve s now id) ∨
      ((getVoteCounts now id s).1 = .miss (readCounts s now id) ∧
        singleResolve s now id = .summary (readCounts s now id))) := by
  constructor
  · obtain ⟨h2, m2, s2, hloop⟩ := batchLoop_spec now s (parsedIds idsParam)
      s [] 0 0 htrim hnd (by intro _ _ p hp; cases hp) (fun id _ => ⟨rfl, rfl, rfl⟩)
    refine ⟨h2, m2, s2, ?_⟩
    have hb : (idsParam == "") = false := beq_eq_false_iff_ne.mpr hne
    have hz : ((parsedIds idsParam).length == 0) = false := by
      rw [beq_eq_false_iff_ne]
      intro hl
      exact hnz (List.length_eq_zero.mp hl)
    have hgt : ¬(200 < (parsedIds idsParam).length) := Nat.not_lt.mpr hlen
    simp only [getBatchVoteCounts, hb, Bool.false_eq_true, if_false, hz,
      if_neg hgt, hloop]
    simp
  · intro id hid
    have hblank : ¬(jsTrim id).data.isEmpty = true := by
      have := (List.mem_filter.mp hid).2
      simpa using this
    have hide : id ≠ "" := by
      intro he
      apply hblank
      rw [htrim id hid] at hblank ⊢
      rw [he]
      rfl
    have hidb : (id == "") = false := beq_eq_false_iff_ne.mpr hide
    rcases hc : kvGet s now (cacheKey id) with - | v
    · right
      constructor
      · simp only [getVoteCounts, hidb, Bool.false_eq_true, if_false, hc]
      · rw [singleResolve, hc]
    · left
      rw [singleResolve, hc]
      simp only [getVoteCounts, hidb, Bool.false_eq_true, if_false, hc]

/-- Witness for C5 (amended): the batch read `ids = "a,b"` over the
empty store returns one entry per id with count 2. -/
theorem batch_ok_distinct_witness :
    ∃ hits misses s2,
      getBatchVoteCounts 7 "a,b" [] =
        (.ok ((parsedIds "a,b").map (fun id => (id, singleResolve [] 7 id)))
          (parsedIds "a,b").length hits misses, s2) :=
  (batch_ok_distinct 7 [] "a,b" (by decide) (by decide) (by decide)
    (by decide) (by decide)).1

/-- The results accumulated by the batch loop are keyed by trimmed
request ids (or were already in the accumulator). -/
theorem batchLoop_keys (now : Nat) :
    ∀ (ids : List String) (scur : Store) (acc : List (String × Val))
      (h m : Nat), ∀ p ∈ (batchLoop now ids scur acc h m).1,
      p ∈ acc ∨ ∃ raw ∈ ids, p.1 = jsTrim raw := by
  intro ids
  induction ids with
  | nil =>
    intro scur acc h m p hp
    exact Or.inl hp
  | cons id rest ih =>
    intro scur acc h m p hp
    rw [batchLoop] at hp
    have step : ∀ (s2 : Store) (v : Val) (h2 m2 : Nat),
        p ∈ (batchLoop now rest s2 (objAssign acc (jsTrim id) v) h2 m2).1 →
        p ∈ acc ∨ ∃ raw ∈ id :: rest, p.1 = jsTrim raw := by
      intro s2 v h2 m2 hin
      rcases ih s2 _ h2 m2 p hin with hin | ⟨raw, hraw, hpr⟩
      · rcases objAssign_mem hin with hin | hin
        · exact Or.inl hin
        · exact Or.inr ⟨id, List.mem_cons_self _ _, hin⟩
      · exact Or.inr ⟨raw, List.mem_cons_of_mem _ hraw, hpr⟩
    rcases hc : kvGet scur now (cacheKey (jsTrim id)) with - | v
    · rw [hc] at hp
      exact step _ _ _ _ hp
    · rw [hc] at hp
      exact step _ _ _ _ hp

/-- C10: in every 200 batch response the reported count is the number of
comma-separated non-blank ids of the raw request, while each results
entry is keyed by a trimmed id; on requests with duplicate ids (or ids
differing only in surrounding whitespace, as in `"a, a"`) the results
object therefore has fewer entries than the reported count. -/
theorem batch_count_raw_keys_trimmed :
    (∀ (now : Nat) (idsParam : String) (s : Store)
       (results : List (String × Val)) (count hits misses : Nat) (s2 : Store),
      getBatchVoteCounts now idsParam s = (.ok results count hits misses, s2) →
      count = (parsedIds idsParam).length ∧
      ∀ p ∈ results, ∃ raw ∈ parsedIds idsParam, p.1 = jsTrim raw) ∧
    (getBatchVoteCounts 0 "a, a" []).1 =
      .ok [("a", .summary ⟨"a", 0, 0, 0, 0⟩)] 2 1 1 ∧
    (parsedIds "a, a").length = 2 := by
  refine ⟨?_, by decide, by decide⟩
  intro now idsParam s results count hits misses s2 hres
  rw [getBatchVoteCounts] at hres
  by_cases hb : (idsParam == "") = true
  · rw [if_pos hb] at hres
    simp at hres
  · rw [if_neg hb] at hres
    by_cases hz : ((parsedIds idsParam).length == 0) = true
    · rw [if_pos hz] at hres
      simp at hres
    · rw [if_neg hz] at hres
      by_cases hgt : 200 < (parsedIds idsParam).length
      · rw [if_pos hgt] at hres
        simp at hres
      · rw [if_neg hgt] at hres
        rcases hbl : batchLoop now (parsedIds idsParam) s [] 0 0 with
          ⟨r, h2, m2, st⟩
        simp only [hbl] at hres
        rw [Prod.mk.injEq] at hres
        have hok := hres.1
        rw [BResp.ok.injEq] at hok
        obtain ⟨hr, hcnt, -, -⟩ := hok
        constructor
        · exact hcnt.symm
        · intro p hp
          have hpr : p ∈ (batchLoop now (parsedIds idsParam) s [] 0 0).1 := by
            rw [hbl]
            rw [← hr] at hp
            exact hp
          rcases batchLoop_keys now (parsedIds idsParam) s [] 0 0 p hpr with
            hin | hex
          · cases hin
          · exact hex

/-- Witness for C10: applied to the concrete `"a, a"` run, the reported
count 2 equals the number of non-blank comma-separated raw ids. -/
theorem batch_count_raw_keys_trimmed_witness :
    (2 : Nat) = (parsedIds "a, a").length :=
  (batch_count_raw_keys_trimmed.1 0 "a, a" []
    [("a", .summary ⟨"a", 0, 0, 0, 0⟩)] 2 1 1
    [⟨cacheKey "a", .summary ⟨"a", 0, 0, 0, 0⟩, some 60⟩] (by decide)).1

end VoteApi
